import Mathlib

/-!
Shallow embedding of the routing package of carbon-relay-ng
(file `routing.go`: `Route`, `Routes` and the relay loop).

The Go regexp library is an external collaborator; it is modelled
abstractly by a compiled-regex type `R` together with two functions,
`compile : String → Option R` (`regexp.Compile`, `none` models a compile
error) and `rmatch : R → List Nat → Bool` (`Regexp.Match` on a byte
slice, bytes modelled as naturals).  Byte slices (`[]byte`) are
`List Nat`.

Statefulness is modelled by explicit state passing: a Go method that
mutates its receiver becomes a function returning the new value of the
receiver (plus the method's return value where there is one).  The
`sync.Mutex` in `Routes` serialises the operations; the embedding
therefore describes each operation as an atomic state transformation.
-/

deriving instance DecidableEq for Except

namespace CarbonRelayNG

/-- The `Route` struct.  `Key`, `Patt`, `Addr`, `spoolDir`, `Spool` and `Reg`
are the basic fields copied by `Route.Copy`; the `instrument` statsd handle
carries no routing state and is omitted.  The runtime fields set by `Run()`
(`ch`, `shutdown`, `queue`, `raddr`, `connUpdates`, `inConnUpdate`) are
summarised by the flag `running` (`true` once the channels are non-nil);
`Route.Copy` does not copy them, so a copy has `running = false`. -/
structure Route (R : Type) where
  Key : String
  Patt : String
  Addr : String
  spoolDir : String
  Spool : Bool
  Reg : R
  running : Bool
deriving DecidableEq

/-- Byte slices (`[]byte`). -/
abbrev Bytes : Type := List Nat

/-- The association-list model of `map[string]*Route` (and of the value map
`map[string]Route` returned by `Routes.List`). -/
abbrev RouteMap (R : Type) : Type := List (String × Route R)

/-- A list of route keys. -/
abbrev Keys : Type := List String

/-- Go map lookup `m[key]` on an association-list model of `map[string]*Route`
(also used for the value-map returned by `Routes.List`). -/
def lookupKey {β : Type} (m : List (String × β)) (key : String) : Option β :=
  match m with
  | [] => none
  | (k, v) :: rest => if k = key then some v else lookupKey rest key

/-- Go map update `m[key] = v` of a key already present (used by `Routes.Update`
for the pattern branch: the `*Route` is mutated in place, which in the
state-passing model replaces the entry for that key). -/
def setKey {β : Type} (m : List (String × β)) (key : String) (v : β) : List (String × β) :=
  m.map (fun kv => if kv.1 = key then (key, v) else kv)

/-- Go `delete(m, key)`. -/
def delKey {β : Type} (m : List (String × β)) (key : String) : List (String × β) :=
  m.filter (fun kv => ¬ kv.1 = key)

section Routing

variable {R : Type} (compile : String → Option R) (rmatch : R → Bytes → Bool)

/-- `Route.updatePattern`: recompile the pattern; on a compile error the
error is returned and the receiver is untouched, otherwise `Patt` and `Reg`
are both replaced.  The pair is (new receiver state, error). -/
def Route.updatePattern (route : Route R) (pattern : String) : Route R × Option String :=
  match compile pattern with
  | none => (route, some "pattern error")
  | some regex => ({ route with Patt := pattern, Reg := regex }, none)

/-- `NewRoute`: the Go code builds the struct with `Patt = ""` and then calls
`route.updatePattern(patt)`, so on compile failure the error is returned and
on success the new route carries `Patt = patt` and the compiled regex.
Routes are created not running (`Run()` has not been called yet). -/
def NewRoute (key patt addr spoolDir : String) (spool : Bool) : Except String (Route R) :=
  match compile patt with
  | none => .error "pattern error"
  | some regex =>
    .ok { Key := key, Patt := patt, Addr := addr, spoolDir := spoolDir,
          Spool := spool, Reg := regex, running := false }

/-- `Route.Copy`: a basic static copy, not actually running: the six basic
fields and `Reg` are copied, the runtime fields are left at their zero
values (`running = false`). -/
def Route.Copy (route : Route R) : Route R :=
  { Key := route.Key, Patt := route.Patt, Addr := route.Addr,
    spoolDir := route.spoolDir, Spool := route.Spool, Reg := route.Reg,
    running := false }

/-- The `Routes` table: `Map` is `map[string]*Route`, `KeyList` the dispatch
order, `SpoolDir` the default spool directory.  The mutex only serialises
the operations and has no counterpart in the state-passing model. -/
structure Routes (R : Type) where
  Map : List (String × Route R)
  KeyList : List String
  SpoolDir : String
deriving DecidableEq

/-- The loop body of `Routes.Dispatch` over the remaining keys.  For each key
it reads `routes.Map[key]` and calls `route.Reg.Match(buf)`; a key absent
from the map yields a nil `*Route` and the `Match` call dereferences nil,
which is modelled by the result `none` (runtime panic).  A match records a
submission `route.ch <- buf` (the submitted keys are collected) and sets
`routed`; with `first_only` the loop breaks after the first match. -/
def dispatchGo (m : List (String × Route R)) (buf : List Nat) (first_only : Bool) :
    List String → Option (List String × Bool)
  | [] => some ([], false)
  | key :: keys =>
    match lookupKey m key with
    | none => none
    | some route =>
      if rmatch route.Reg buf then
        if first_only then
          some ([key], true)
        else
          match dispatchGo m buf first_only keys with
          | none => none
          | some (subs, _) => some (key :: subs, true)
      else
        dispatchGo m buf first_only keys

/-- `Routes.Dispatch(buf, first_only)`: iterate `KeyList`, submit to each
matching route, return `routed`.  The result is `none` when the loop panics
on a key that is missing from `Map`; otherwise `some (submitted keys, routed)`. -/
def Routes.Dispatch (rs : Routes R) (buf : Bytes) (first_only : Bool) :
    Option (Keys × Bool) :=
  dispatchGo rmatch rs.Map buf first_only rs.KeyList

/-- `Routes.List`: builds a fresh `map[string]Route` holding `*v.Copy()` for
every entry — plain `Route` values, not pointers into the table. -/
def Routes.List (rs : Routes R) : RouteMap R :=
  rs.Map.map (fun kv => (kv.1, kv.2.Copy))

/-- `Routes.List` in state-passing form: the method only reads the table
under the lock, so the table component of the result is the input table. -/
def Routes.ListSt (rs : Routes R) : RouteMap R × Routes R :=
  (Routes.List rs, rs)

/-- `Routes.Add(key, patt, addr, spool)`: error if the key is taken, else
`NewRoute` (with the table's `SpoolDir`), `route.Run()` (which never fails:
its named error return is never assigned; it sets up the channels, the
disk queue when spooling, and starts the relay goroutine) and the insertion
`routes.Map[key] = route`.  Note that `KeyList` is left untouched. -/
def Routes.Add (rs : Routes R) (key patt addr : String) (spool : Bool) :
    Except String (Routes R) :=
  match lookupKey rs.Map key with
  | some _ => .error "route with given key already exists"
  | none =>
    match NewRoute compile key patt addr rs.SpoolDir spool with
    | .error e => .error e
    | .ok route =>
      .ok { rs with Map := (key, { route with running := true }) :: rs.Map }

/-- `Routes.Update(key, addr, patt)`: unknown key is an error; when `addr`
is non-nil the function returns `route.updateConn()` at once — the reconnect
is triggered and the call returns without ever reaching the pattern branch
(`connResult` stands for the network outcome of `updateConn`, which does not
touch `Patt` or `Reg` or any other table state); only when `addr` is nil and
`patt` non-nil is `route.updatePattern(*patt)` run, replacing the entry. -/
def Routes.Update (rs : Routes R) (key : String) (addr patt : Option String)
    (connResult : Except String Unit) : Except String (Routes R) :=
  match lookupKey rs.Map key with
  | none => .error ("unknown route " ++ key)
  | some route =>
    match addr with
    | some _ =>
      match connResult with
      | .ok _ => .ok rs
      | .error e => .error e
    | none =>
      match patt with
      | none => .ok rs
      | some p =>
        match Route.updatePattern compile route p with
        | (_, some e) => .error e
        | (route2, none) => .ok { rs with Map := setKey rs.Map key route2 }

/-- `Routes.Del(key)`: unknown key is an error; otherwise the entry is
deleted from `Map` (and only from `Map` — `KeyList` is left untouched) and
`route.Shutdown()` is called, which errors only when the route was never
run.  The result pairs the new table with the error, since the map deletion
has already happened when `Shutdown` reports its error. -/
def Routes.Del (rs : Routes R) (key : String) : Routes R × Option String :=
  match lookupKey rs.Map key with
  | none => (rs, some ("unknown route " ++ key))
  | some route =>
    ({ rs with Map := delKey rs.Map key },
     if route.running then none else some "not running yet")

end Routing

/-! The relay loop (`Route.relay`).  The loop is a select over six channels;
the embedding gives the per-event state transformation.  `process_packet`
is the closure of the same name; the outcome of `conn.Write(buf)` is an
oracle argument (`none` models a write error, `some n` models a successful
call that wrote `n` bytes). -/

/-- The four statsd counter directions incremented by `process_packet`
(`direction=spool`, `direction=drop`, `direction=out`, `unit=Err`). -/
structure Counters where
  spool : Nat
  drop : Nat
  out : Nat
  err : Nat
deriving DecidableEq

/-- The state touched by `process_packet`: whether `conn` is non-nil, the
contents of the disk queue (`route.queue`, grown by `Put`) and the counters. -/
structure PacketState where
  conn : Bool
  queue : List Bytes
  counters : Counters
deriving DecidableEq

/-- `process_packet(buf)`: with no connection the packet is spooled (queue
`Put` plus `direction=spool`) when spooling is enabled, otherwise dropped
(`direction=drop`).  With a connection, `direction=out` is incremented and
`conn.Write(buf)` is called; on a write error (`w = none`) or a short write
(`w = some n` with `n ≠ len(buf)`) the `Err` counter is incremented, the
connection is closed and cleared, and the packet is spooled when spooling
is enabled. -/
def process_packet (spoolEnabled : Bool) (st : PacketState) (buf : Bytes)
    (w : Option Nat) : PacketState :=
  if st.conn = false then
    if spoolEnabled then
      { st with queue := st.queue ++ [buf],
                counters := { st.counters with spool := st.counters.spool + 1 } }
    else
      { st with counters := { st.counters with drop := st.counters.drop + 1 } }
  else
    let st1 : PacketState :=
      { st with counters := { st.counters with out := st.counters.out + 1 } }
    match w with
    | none =>
      let st2 : PacketState :=
        { st1 with conn := false,
                   counters := { st1.counters with err := st1.counters.err + 1 } }
      if spoolEnabled then { st2 with queue := st2.queue ++ [buf] } else st2
    | some n =>
      if buf.length ≠ n then
        let st2 : PacketState :=
          { st1 with conn := false,
                     counters := { st1.counters with err := st1.counters.err + 1 } }
        if spoolEnabled then { st2 with queue := st2.queue ++ [buf] } else st2
      else
        st1

/-- The tick period of the relay loop, `period_assure_conn`, in seconds. -/
def period_assure_conn : Nat := 60

/-- One select alternative of the relay loop:
`inConnUpdate` (a connect attempt signals begin with `true` / end with
`false`), `connUpdate` (a connect result; `false` models a nil connection),
`tick` (the 60-second ticker), `shutdownSignal`, and the two packet sources
`unspool` (from the queue read channel, offered only while connected with
spooling on) and `live` (from `route.ch`); the packet events carry the
write oracle for `process_packet`. -/
inductive RelayEvent where
  | inConnUpdate (b : Bool)
  | connUpdate (c : Bool)
  | tick
  | shutdownSignal
  | unspool (buf : Bytes) (w : Option Nat)
  | live (buf : Bytes) (w : Option Nat)
deriving DecidableEq

/-- The local state of the relay loop: the `conn_updates` counter and the
state read by `process_packet`.  (`to_unspool` is derived at the top of each
iteration and is not part of the state.) -/
structure RelayLoopState where
  conn_updates : Int
  pst : PacketState
deriving DecidableEq

/-- One iteration of the relay loop select.  The `Bool` component records
whether this iteration spawned a new connect attempt (`go route.updateConn()`
in the ticker arm).  `shutdownSignal` makes the loop return; its state
transformation is the identity. -/
def relayStep (spoolEnabled : Bool) (st : RelayLoopState) (ev : RelayEvent) :
    RelayLoopState × Bool :=
  match ev with
  | .inConnUpdate b =>
    ({ st with conn_updates := if b then st.conn_updates + 1 else st.conn_updates - 1 },
     false)
  | .connUpdate c => ({ st with pst := { st.pst with conn := c } }, false)
  | .tick =>
    if st.pst.conn = false ∧ st.conn_updates = 0 then (st, true) else (st, false)
  | .shutdownSignal => (st, false)
  | .unspool buf w => ({ st with pst := process_packet spoolEnabled st.pst buf w }, false)
  | .live buf w => ({ st with pst := process_packet spoolEnabled st.pst buf w }, false)

/-- A relay-loop state together with the number of connect attempts that
have delivered their begin notification (`inConnUpdate <- true`) but not yet
their end notification.  `updateConn` sends `true` first and `false` last
(via `defer`) on the same unbuffered channel, so an end notification can
only be processed while such an attempt is in flight. -/
structure TrackedRelay where
  rstate : RelayLoopState
  inflight : Nat
deriving DecidableEq

/-- Reachable states of the relay loop, instrumented with the in-flight
attempt count.  The initial state has `conn_updates = 0` (and an arbitrary
packet state); a begin notification may arrive at any time (a spawned
attempt starting), an end notification only while an attempt is in flight
(each attempt brackets itself, begin before end); every other select arm
leaves the notification bookkeeping untouched. -/
inductive RelayReach (spoolEnabled : Bool) : TrackedRelay → Prop where
  | init (pst : PacketState) :
      RelayReach spoolEnabled ⟨⟨0, pst⟩, 0⟩
  | beginAttempt {t : TrackedRelay} (h : RelayReach spoolEnabled t) :
      RelayReach spoolEnabled
        ⟨(relayStep spoolEnabled t.rstate (.inConnUpdate true)).1, t.inflight + 1⟩
  | endAttempt {t : TrackedRelay} (h : RelayReach spoolEnabled t) (hf : 0 < t.inflight) :
      RelayReach spoolEnabled
        ⟨(relayStep spoolEnabled t.rstate (.inConnUpdate false)).1, t.inflight - 1⟩
  | other {t : TrackedRelay} (h : RelayReach spoolEnabled t) (ev : RelayEvent)
      (hev : ∀ b : Bool, ev ≠ .inConnUpdate b) :
      RelayReach spoolEnabled ⟨(relayStep spoolEnabled t.rstate ev).1, t.inflight⟩

/-! Spec-side predicate used to state dispatch completeness, and a concrete
instantiation of the abstract regexp collaborator used to evaluate the
definitions on closed inputs. -/

/-- Whether the route stored under `k` matches `buf` (`false` when `k` is
not in the map). -/
def matchesKey {R : Type} (rmatch : R → Bytes → Bool) (m : RouteMap R)
    (buf : Bytes) (k : String) : Bool :=
  match lookupKey m k with
  | none => false
  | some route => rmatch route.Reg buf

/-- A concrete regexp collaborator for evaluation: a compiled regex is the
pattern string itself, the single pattern `"("` fails to compile. -/
def compileW : String → Option String :=
  fun p => if p = "(" then none else some p

/-- Matching for the concrete collaborator: the empty pattern matches every
line, a non-empty pattern matches none. -/
def rmatchW : String → Bytes → Bool :=
  fun r _buf => r.isEmpty

/-- A concrete running route for the concrete collaborator (its `Reg` is the
compiled form of its `Patt`). -/
def mkRouteW (key patt addr : String) (spool run : Bool) : Route String :=
  ⟨key, patt, addr, "", spool, patt, run⟩

/-- The line `hello\n` as bytes. -/
def helloBuf : Bytes := [104, 101, 108, 108, 111, 10]

/-- A table with the single running route `r1` (pattern `x`). -/
def c1Table : Routes String :=
  ⟨[("r1", mkRouteW "r1" "x" "1.2.3.4:2003" false true)], ["r1"], ""⟩

/-- The table after `Add("r2", "", "9.9.9.9:2003", false)` on `c1Table`. -/
def c1After : Except String (Routes String) :=
  Routes.Add compileW c1Table "r2" "" "9.9.9.9:2003" false

/-- A table with the single running route `a` (empty pattern). -/
def c2Table : Routes String :=
  ⟨[("a", mkRouteW "a" "" "5.6.7.8:2003" false true)], ["a"], ""⟩

/-- The result of `Del("a")` on `c2Table`. -/
def c2Del : Routes String × Option String := Routes.Del c2Table "a"

/-- A table with the single running route `r` (empty pattern). -/
def c3Table : Routes String :=
  ⟨[("r", mkRouteW "r" "" "1.2.3.4:2003" false true)], ["r"], ""⟩

/-- A two-route table satisfying invariant I1 at rest: the keys of `Map`
are exactly the entries of `KeyList`. -/
def c4Table : Routes String :=
  ⟨[("a", mkRouteW "a" "" "5.6.7.8:2003" false true),
    ("b", mkRouteW "b" "x" "1.2.3.4:2003" false true)], ["a", "b"], ""⟩

/-- An initial packet state: disconnected, empty queue, zero counters. -/
def pst0 : PacketState := ⟨false, [], ⟨0, 0, 0, 0⟩⟩

/-! General lemmas about the association-list operations. -/

/-- Unfolding `lookupKey` on the empty list. -/
theorem lookupKey_nil {β : Type} (key : String) :
    lookupKey ([] : List (String × β)) key = none := rfl

/-- Unfolding `lookupKey` on a cons cell. -/
theorem lookupKey_cons {β : Type} (k : String) (w : β) (rest : List (String × β))
    (key : String) :
    lookupKey ((k, w) :: rest) key = if k = key then some w else lookupKey rest key := rfl

/-- Unfolding `setKey` on a cons cell. -/
theorem setKey_cons {β : Type} (k : String) (w : β) (rest : List (String × β))
    (key : String) (v2 : β) :
    setKey ((k, w) :: rest) key v2
      = (if k = key then (key, v2) else (k, w)) :: setKey rest key v2 := rfl

/-- A successful `lookupKey` finds an entry of the list. -/
theorem lookupKey_mem {β : Type} {m : List (String × β)} {key : String} {v : β}
    (h : lookupKey m key = some v) : (key, v) ∈ m := by
  induction m with
  | nil => simp [lookupKey_nil] at h
  | cons kv rest ih =>
    obtain ⟨k, w⟩ := kv
    rw [lookupKey_cons] at h
    by_cases hk : k = key
    · rw [if_pos hk] at h
      obtain rfl : w = v := by injection h
      subst hk
      exact List.mem_cons_self _ _
    · rw [if_neg hk] at h
      exact List.mem_cons_of_mem _ (ih h)

/-- `lookupKey` after `setKey` at the same, present, key returns the new
value. -/
theorem lookupKey_setKey {β : Type} {m : List (String × β)} {key : String} {v : β}
    (v2 : β) (h : lookupKey m key = some v) :
    lookupKey (setKey m key v2) key = some v2 := by
  induction m with
  | nil => simp [lookupKey_nil] at h
  | cons kv rest ih =>
    obtain ⟨k, w⟩ := kv
    rw [lookupKey_cons] at h
    rw [setKey_cons]
    by_cases hk : k = key
    · rw [if_pos hk, lookupKey_cons, if_pos rfl]
    · rw [if_neg hk] at h
      rw [if_neg hk, lookupKey_cons, if_neg hk]
      exact ih h

/-- `lookupKey` through a per-entry copy of an association list. -/
theorem lookupKey_map_copy {R : Type} (m : RouteMap R) (key : String) :
    lookupKey (m.map fun kv => (kv.1, kv.2.Copy)) key
      = (lookupKey m key).map Route.Copy := by
  induction m with
  | nil => rfl
  | cons kv rest ih =>
    obtain ⟨k, w⟩ := kv
    rw [List.map_cons]
    show lookupKey ((k, w.Copy) :: rest.map fun kv => (kv.1, kv.2.Copy)) key = _
    rw [lookupKey_cons, lookupKey_cons]
    by_cases hk : k = key
    · rw [if_pos hk, if_pos hk]
      rfl
    · rw [if_neg hk, if_neg hk]
      exact ih

/-- `lookupKey` through the value map built by `Routes.List` is the copy of
the stored route. -/
theorem lookupKey_list {R : Type} (rs : Routes R) (key : String) :
    lookupKey (Routes.List rs) key = (lookupKey rs.Map key).map Route.Copy :=
  lookupKey_map_copy rs.Map key

/-- Whether a key matches is determined by the stored route's regex. -/
theorem matchesKey_eq_true_iff {R : Type} (rmatch : R → Bytes → Bool)
    (m : RouteMap R) (buf : Bytes) (k : String) :
    matchesKey rmatch m buf k = true
      ↔ ∃ r : Route R, lookupKey m k = some r ∧ rmatch r.Reg buf = true := by
  cases hl : lookupKey m k with
  | none => simp [matchesKey, hl]
  | some r => simp [matchesKey, hl]

/-- Characterization of the dispatch loop when every key of the order is in
the map: no panic, the submitted keys are the matching keys of the order (the
first one only under `first_only`), `routed` is whether any key matches. -/
theorem dispatchGo_eq {R : Type} (rmatch : R → Bytes → Bool) (m : RouteMap R)
    (buf : Bytes) (first_only : Bool) (keys : List String)
    (hI1 : ∀ k ∈ keys, (lookupKey m k).isSome = true) :
    dispatchGo rmatch m buf first_only keys
      = some ((if first_only
                then (keys.filter (matchesKey rmatch m buf)).take 1
                else keys.filter (matchesKey rmatch m buf)),
              keys.any (matchesKey rmatch m buf)) := by
  induction keys with
  | nil => cases first_only <;> rfl
  | cons key keys ih =>
    have hkey := hI1 key (List.mem_cons_self key keys)
    rw [Option.isSome_iff_exists] at hkey
    obtain ⟨route, hroute⟩ := hkey
    have hrest : ∀ k ∈ keys, (lookupKey m k).isSome = true :=
      fun k hk => hI1 k (List.mem_cons_of_mem _ hk)
    have ih2 := ih hrest
    have hm : matchesKey rmatch m buf key = rmatch route.Reg buf := by
      simp [matchesKey, hroute]
    by_cases hmatch : rmatch route.Reg buf = true
    · cases first_only with
      | true =>
        simp [dispatchGo, hroute, hmatch, List.filter_cons, List.any_cons, hm]
      | false =>
        simp [dispatchGo, hroute, hmatch, ih2, List.filter_cons, List.any_cons, hm]
    · rw [Bool.not_eq_true] at hmatch
      cases first_only with
      | true =>
        simp [dispatchGo, hroute, hmatch, ih2, List.filter_cons, List.any_cons, hm]
      | false =>
        simp [dispatchGo, hroute, hmatch, ih2, List.filter_cons, List.any_cons, hm]

/-- C4: for every line and table state satisfying I1 at rest (every key of
the order has a route in the map, every map entry is in the order),
`Dispatch(line, first_only)` panics on no lookup and submits the line
exactly to the matching routes of the order — all of them when
`first_only = false`, only the first in order when `first_only = true` —
and it returns `true` if and only if at least one route matched:
membership in the submitted keys coincides with having a stored route whose
regex matches. -/
theorem dispatch_matches_iff {R : Type} (rmatch : R → Bytes → Bool) (rs : Routes R)
    (buf : Bytes) (first_only : Bool)
    (hI1 : ∀ k ∈ rs.KeyList, (lookupKey rs.Map k).isSome = true)
    (hRest : ∀ kv ∈ rs.Map, kv.1 ∈ rs.KeyList) :
    Routes.Dispatch rmatch rs buf first_only
      = some ((if first_only
                then (rs.KeyList.filter (matchesKey rmatch rs.Map buf)).take 1
                else rs.KeyList.filter (matchesKey rmatch rs.Map buf)),
              rs.KeyList.any (matchesKey rmatch rs.Map buf))
    ∧ (∀ k : String,
        k ∈ rs.KeyList.filter (matchesKey rmatch rs.Map buf)
          ↔ ∃ r : Route R, lookupKey rs.Map k = some r ∧ rmatch r.Reg buf = true)
    ∧ (rs.KeyList.any (matchesKey rmatch rs.Map buf) = true
          ↔ ∃ (k : String) (r : Route R),
              lookupKey rs.Map k = some r ∧ rmatch r.Reg buf = true) := by
  refine ⟨dispatchGo_eq rmatch rs.Map buf first_only rs.KeyList hI1, ?_, ?_⟩
  · intro k
    rw [List.mem_filter, matchesKey_eq_true_iff]
    constructor
    · exact fun h => h.2
    · rintro ⟨r, hr, hrm⟩
      exact ⟨hRest (k, r) (lookupKey_mem hr), ⟨r, hr, hrm⟩⟩
  · rw [List.any_eq_true]
    constructor
    · rintro ⟨k, _, hk⟩
      obtain ⟨r, hr, hrm⟩ := (matchesKey_eq_true_iff rmatch rs.Map buf k).mp hk
      exact ⟨k, r, hr, hrm⟩
    · rintro ⟨k, r, hr, hrm⟩
      exact ⟨k, hRest (k, r) (lookupKey_mem hr),
             (matchesKey_eq_true_iff rmatch rs.Map buf k).mpr ⟨r, hr, hrm⟩⟩

/-- Witness for C4 at the concrete two-route table (`a` with the empty
pattern matches `hello\n`, `b` with pattern `x` does not). -/
theorem dispatch_matches_iff_witness :
    Routes.Dispatch rmatchW c4Table helloBuf false
      = some ((if false
                then (c4Table.KeyList.filter (matchesKey rmatchW c4Table.Map helloBuf)).take 1
                else c4Table.KeyList.filter (matchesKey rmatchW c4Table.Map helloBuf)),
              c4Table.KeyList.any (matchesKey rmatchW c4Table.Map helloBuf))
    ∧ (∀ k : String,
        k ∈ c4Table.KeyList.filter (matchesKey rmatchW c4Table.Map helloBuf)
          ↔ ∃ r : Route String, lookupKey c4Table.Map k = some r ∧ rmatchW r.Reg helloBuf = true)
    ∧ (c4Table.KeyList.any (matchesKey rmatchW c4Table.Map helloBuf) = true
          ↔ ∃ (k : String) (r : Route String),
              lookupKey c4Table.Map k = some r ∧ rmatchW r.Reg helloBuf = true) :=
  dispatch_matches_iff rmatchW c4Table helloBuf false (by decide) (by decide)

/-- C5: case analysis of `process_packet`.  With no connection the packet is
spooled (queued and counted as `spool`) when spooling is enabled and counted
as `drop` otherwise; with a connection it is counted as `out` and written,
and on a write error or a short write the `Err` counter is incremented, the
connection is closed and cleared, and the packet is queued exactly when
spooling is enabled. -/
theorem process_packet_cases (spoolEnabled : Bool) (st : PacketState) (buf : Bytes)
    (w : Option Nat) :
    (st.conn = false → spoolEnabled = true → process_packet spoolEnabled st buf w
        = { st with queue := st.queue ++ [buf],
                    counters := { st.counters with spool := st.counters.spool + 1 } })
    ∧ (st.conn = false → spoolEnabled = false → process_packet spoolEnabled st buf w
        = { st with counters := { st.counters with drop := st.counters.drop + 1 } })
    ∧ (st.conn = true → w = none → process_packet spoolEnabled st buf w
        = { st with conn := false,
                    queue := st.queue ++ (if spoolEnabled then [buf] else []),
                    counters := { st.counters with
                      out := st.counters.out + 1
                      err := st.counters.err + 1 } })
    ∧ (∀ n : Nat, st.conn = true → w = some n → buf.length ≠ n →
        process_packet spoolEnabled st buf w
        = { st with conn := false,
                    queue := st.queue ++ (if spoolEnabled then [buf] else []),
                    counters := { st.counters with
                      out := st.counters.out + 1
                      err := st.counters.err + 1 } })
    ∧ (st.conn = true → w = some buf.length → process_packet spoolEnabled st buf w
        = { st with counters := { st.counters with out := st.counters.out + 1 } }) := by
  obtain ⟨conn, queue, cnt⟩ := st
  obtain ⟨cs, cd, co, ce⟩ := cnt
  refine ⟨?_, ?_, ?_, ?_, ?_⟩
  · intro hc hs
    subst hs
    simp at hc
    subst hc
    simp [process_packet]
  · intro hc hs
    subst hs
    simp at hc
    subst hc
    simp [process_packet]
  · intro hc hw
    subst hw
    simp at hc
    subst hc
    cases spoolEnabled <;> simp [process_packet]
  · intro n hc hw hn
    subst hw
    simp at hc
    subst hc
    cases spoolEnabled <;> simp [process_packet, hn]
  · intro hc hw
    subst hw
    simp at hc
    subst hc
    simp [process_packet]

/-- Witness for C5: a connected state with spooling enabled, a failing write
(`w = none`): `out` and `err` are counted, the connection is cleared and the
packet lands on the queue. -/
theorem process_packet_cases_witness :
    (⟨true, [], ⟨0, 0, 0, 0⟩⟩ : PacketState).conn = true
    ∧ process_packet true ⟨true, [], ⟨0, 0, 0, 0⟩⟩ [1, 2] none
        = { (⟨true, [], ⟨0, 0, 0, 0⟩⟩ : PacketState) with
              conn := false,
              queue := (⟨true, [], ⟨0, 0, 0, 0⟩⟩ : PacketState).queue
                ++ (if true then [[1, 2]] else []),
              counters := { (⟨true, [], ⟨0, 0, 0, 0⟩⟩ : PacketState).counters with
                out := (⟨true, [], ⟨0, 0, 0, 0⟩⟩ : PacketState).counters.out + 1
                err := (⟨true, [], ⟨0, 0, 0, 0⟩⟩ : PacketState).counters.err + 1 } } :=
  ⟨rfl, (process_packet_cases true ⟨true, [], ⟨0, 0, 0, 0⟩⟩ [1, 2] none).2.2.1 rfl rfl⟩

/-- C6: `updatePattern` is atomic with respect to the `(Patt, Reg)` pair: on
a compile failure it returns the error and leaves the route — both the
pattern string and the compiled regex — unchanged, and on success both are
replaced together, so a successful call leaves `Reg` the compiled form of
`Patt`. -/
theorem updatePattern_atomic {R : Type} (compile : String → Option R)
    (route : Route R) (pattern : String) :
    (compile pattern = none →
        Route.updatePattern compile route pattern = (route, some "pattern error"))
    ∧ (∀ regex : R, compile pattern = some regex →
        Route.updatePattern compile route pattern
          = ({ route with Patt := pattern, Reg := regex }, none))
    ∧ ((Route.updatePattern compile route pattern).2 = none →
        compile (Route.updatePattern compile route pattern).1.Patt
          = some (Route.updatePattern compile route pattern).1.Reg) := by
  refine ⟨?_, ?_, ?_⟩
  · intro h
    simp [Route.updatePattern, h]
  · intro regex h
    simp [Route.updatePattern, h]
  · intro h
    cases hc : compile pattern with
    | none => simp [Route.updatePattern, hc] at h
    | some regex => simp [Route.updatePattern, hc]

/-- Witness for C6 with the concrete collaborator: the pattern `(` fails to
compile and leaves the route unchanged, the pattern `xy` compiles and
replaces both fields. -/
theorem updatePattern_atomic_witness :
    compileW "(" = none
    ∧ Route.updatePattern compileW (mkRouteW "r" "" "a:1" false true) "("
        = (mkRouteW "r" "" "a:1" false true, some "pattern error")
    ∧ compileW "xy" = some "xy"
    ∧ Route.updatePattern compileW (mkRouteW "r" "" "a:1" false true) "xy"
        = ({ mkRouteW "r" "" "a:1" false true with Patt := "xy", Reg := "xy" }, none) :=
  ⟨by decide,
   (updatePattern_atomic compileW (mkRouteW "r" "" "a:1" false true) "(").1 (by decide),
   by decide,
   (updatePattern_atomic compileW (mkRouteW "r" "" "a:1" false true) "xy").2.1 "xy" (by decide)⟩

/-- C7: the ticker arm of the relay loop (the tick period is 60 seconds)
spawns a new asynchronous connect attempt if and only if there is no
connection and no connect attempt is pending, and the tick itself never
changes the loop state. -/
theorem tick_spawns_iff_disconnected_idle (spoolEnabled : Bool) (st : RelayLoopState) :
    period_assure_conn = 60
    ∧ ((relayStep spoolEnabled st .tick).2 = true
        ↔ st.pst.conn = false ∧ st.conn_updates = 0)
    ∧ (relayStep spoolEnabled st .tick).1 = st := by
  refine ⟨rfl, ?_, ?_⟩
  · by_cases h : st.pst.conn = false ∧ st.conn_updates = 0 <;> simp [relayStep, h]
  · by_cases h : st.pst.conn = false ∧ st.conn_updates = 0 <;> simp [relayStep, h]

/-- A select arm other than an `inConnUpdate` notification leaves the
`conn_updates` counter unchanged. -/
theorem relayStep_conn_updates (spoolEnabled : Bool) (st : RelayLoopState)
    (ev : RelayEvent) (hev : ∀ b : Bool, ev ≠ .inConnUpdate b) :
    ((relayStep spoolEnabled st ev).1).conn_updates = st.conn_updates := by
  cases ev with
  | inConnUpdate b => exact absurd rfl (hev b)
  | connUpdate c => rfl
  | tick =>
    simp only [relayStep]
    split <;> rfl
  | shutdownSignal => rfl
  | unspool buf w => rfl
  | live buf w => rfl

/-- C8: in every reachable state of the relay loop the `conn_updates`
counter equals the number of in-flight connect attempts, hence is never
negative: each attempt delivers its begin notification before its end
notification, so ends can never outnumber begins. -/
theorem conn_updates_nonneg (spoolEnabled : Bool) (t : TrackedRelay)
    (h : RelayReach spoolEnabled t) : 0 ≤ t.rstate.conn_updates := by
  have key : t.rstate.conn_updates = t.inflight := by
    induction h with
    | init pst => rfl
    | beginAttempt h ih =>
      simp [relayStep]
      omega
    | endAttempt h hf ih =>
      simp [relayStep]
      omega
    | other h ev hev ih =>
      rw [relayStep_conn_updates _ _ ev hev]
      exact ih
  rw [key]
  exact Int.natCast_nonneg _

/-- Witness for C8 at the initial relay state. -/
theorem conn_updates_nonneg_witness :
    0 ≤ (⟨⟨0, pst0⟩, 0⟩ : TrackedRelay).rstate.conn_updates :=
  conn_updates_nonneg true ⟨⟨0, pst0⟩, 0⟩ (RelayReach.init pst0)

/-- C9: `Routes.List` returns a copy of the table: for every key the
returned map holds `Copy` of the stored route, with the same `Key`, `Patt`,
`Addr` and `Spool` fields (and none of the runtime state); the table itself
is unchanged by the call; and overwriting an entry of the returned map
changes only the returned map — the stored route is still what `List`
reads from the untouched table. -/
theorem list_returns_copies {R : Type} (rs : Routes R) :
    (∀ (k : String) (r : Route R), lookupKey rs.Map k = some r →
        lookupKey (Routes.List rs) k = some r.Copy
        ∧ r.Copy.Key = r.Key ∧ r.Copy.Patt = r.Patt ∧ r.Copy.Addr = r.Addr
        ∧ r.Copy.Spool = r.Spool ∧ r.Copy.running = false)
    ∧ (Routes.ListSt rs).2 = rs
    ∧ (∀ (k : String) (r r2 : Route R), lookupKey rs.Map k = some r →
        lookupKey (setKey (Routes.List rs) k r2) k = some r2
        ∧ lookupKey (Routes.List rs) k = some r.Copy) := by
  refine ⟨?_, rfl, ?_⟩
  · intro k r h
    refine ⟨?_, rfl, rfl, rfl, rfl, rfl⟩
    rw [lookupKey_list, h]
    rfl
  · intro k r r2 h
    have hl : lookupKey (Routes.List rs) k = some r.Copy := by
      rw [lookupKey_list, h]
      rfl
    exact ⟨lookupKey_setKey r2 hl, hl⟩

/-- Witness for C9 at the concrete two-route table. -/
theorem list_returns_copies_witness :
    lookupKey c4Table.Map "a" = some (mkRouteW "a" "" "5.6.7.8:2003" false true)
    ∧ lookupKey (Routes.List c4Table) "a"
        = some (Route.Copy (mkRouteW "a" "" "5.6.7.8:2003" false true))
    ∧ lookupKey (setKey (Routes.List c4Table) "a" (mkRouteW "z" "z" "z:1" true false)) "a"
        = some (mkRouteW "z" "z" "z:1" true false) :=
  ⟨by decide,
   ((list_returns_copies c4Table).1 "a" (mkRouteW "a" "" "5.6.7.8:2003" false true)
      (by decide)).1,
   ((list_returns_copies c4Table).2.2 "a" (mkRouteW "a" "" "5.6.7.8:2003" false true)
      (mkRouteW "z" "z" "z:1" true false) (by decide)).1⟩

/-- C10: `Update(key, nil, nil)` on a present key takes neither the address
branch nor the pattern branch and returns success with the table — the
route's pattern, regex, address and everything else — completely unchanged. -/
theorem update_noop_frame {R : Type} (compile : String → Option R) (rs : Routes R)
    (key : String) (r : Route R) (connResult : Except String Unit)
    (h : lookupKey rs.Map key = some r) :
    Routes.Update compile rs key none none connResult = .ok rs := by
  simp [Routes.Update, h]

/-- Witness for C10 at the concrete two-route table. -/
theorem update_noop_frame_witness :
    lookupKey c4Table.Map "a" = some (mkRouteW "a" "" "5.6.7.8:2003" false true)
    ∧ Routes.Update compileW c4Table "a" none none (.ok ()) = .ok c4Table :=
  ⟨by decide,
   update_noop_frame compileW c4Table "a" (mkRouteW "a" "" "5.6.7.8:2003" false true)
     (.ok ()) (by decide)⟩

/-- C1: evaluation at the failing input.  `Add("r2", "", "9.9.9.9:2003",
false)` on a one-route table succeeds and inserts the started route under
`r2` in the map, but the key is never appended to the dispatch order
(`KeyList` still reads `["r1"]`), so dispatching `hello\n` — which the new
route's empty pattern matches — submits to no route and returns `false`:
the code contradicts the claimed `Add` behaviour. -/
theorem add_inserts_but_skips_order :
    c1After.map (fun rs => rs.KeyList) = .ok ["r1"]
    ∧ c1After.map (fun rs => (lookupKey rs.Map "r2").isSome) = .ok true
    ∧ c1After.map (fun rs => (lookupKey rs.Map "r2").map Route.running) = .ok (some true)
    ∧ rmatchW "" helloBuf = true
    ∧ c1After.map (fun rs => Routes.Dispatch rmatchW rs helloBuf false)
        = .ok (some ([], false)) := by
  decide

/-- C2: evaluation at the failing input.  `Del("a")` on the one-route table
succeeds and removes `a` from the map, but leaves `a` in the dispatch order
(`KeyList` still reads `["a"]`), violating invariant I1 at rest; the very
next `Dispatch` looks `a` up in the map, gets a nil route and panics
(modelled by the `none` result): the code contradicts the claimed `Del`
behaviour. -/
theorem del_leaves_key_in_order :
    c2Del.2 = none
    ∧ c2Del.1.Map = []
    ∧ c2Del.1.KeyList = ["a"]
    ∧ Routes.Dispatch rmatchW c2Del.1 helloBuf false = none := by
  decide

/-- C3: evaluation at the failing input.  `Update("r", addr = "9.9.9.9:2003",
patt = "^foo")` with both arguments non-nil and a valid pattern returns
success after triggering the reconnect, but the table is returned unchanged:
the route's stored pattern still reads `""` (and its regex the compiled form
of `""`), not `^foo` — the address branch short-circuits and the pattern
update is silently dropped. -/
theorem update_addr_short_circuits_pattern :
    compileW "^foo" = some "^foo"
    ∧ Routes.Update compileW c3Table "r" (some "9.9.9.9:2003") (some "^foo") (.ok ())
        = .ok c3Table
    ∧ (lookupKey c3Table.Map "r").map Route.Patt = some ""
    ∧ (lookupKey c3Table.Map "r").map Route.Reg = some "" := by
  decide

end CarbonRelayNG
